import Mathlib

/-!
# Fetch aggregation examples: a shallow embedding

Two scripts are embedded here:

* `00-FetchAPI-JSONPlaceholder/app.js`: `getUserWithPostsAndComments`, which fetches a user,
  the user's posts and, for every post, its comments;
* `01-FetchAPI-PokeAPI/app.js`: `fetchPokemonList`, `fetchPokemonDetail`, the page navigation
  (`loadNextPage`, `loadPrevPage`, `loadPokemonList`) and the list rendering.

The network is a parameter (`Env.fetch`): the outcome of every request is chosen by the
environment. Every function returns, next to its result, the requests it issued, in order.
-/

namespace FetchAggregation

/-! ## JavaScript values -/

/-- A value as produced by `Response.json()`. Numbers are the integers: identifiers, counts and
status codes are the only numbers the scripts compute with or print. Strings are sequences of
Unicode characters. The fields of an object are listed in property enumeration order. -/
inductive Json where
  | null
  | bool (b : Bool)
  | num (n : Int)
  | str (s : String)
  | arr (items : List Json)
  | obj (fields : List (String × Json))

/-- A JavaScript value of the scripts: `none` is `undefined`. -/
abbrev JsValue := Option Json

/-- An exception value: the `name` and `message` of an `Error` object. -/
structure JsError where
  name : String
  message : String
  deriving DecidableEq, Repr

/-- The value of `new Error(message)`. -/
def mkError (message : String) : JsError := ⟨"Error", message⟩

/-- The `TypeError` the engine throws; the wording of its message is the engine's. -/
def typeError (message : String) : JsError := ⟨"TypeError", message⟩

/-- Reading `v.key`, for the property names the scripts use (`id`, `name`, `results`, `count`,
`next`, `previous`, `sprites`, ...), none of which is a built-in property of arrays, strings,
numbers or booleans (`map` is only read of a value that is not an array): `undefined` and
`null` throw, an object yields its own field or `undefined`, every other value yields
`undefined`. -/
def getProp (v : JsValue) (key : String) : Except JsError JsValue :=
  match v with
  | none => .error (typeError ("Cannot read properties of undefined (reading " ++ key ++ ")"))
  | some .null => .error (typeError ("Cannot read properties of null (reading " ++ key ++ ")"))
  | some (.obj fields) => .ok (fields.lookup key)
  | some _ => .ok none

mutual
/-- The string conversion of a defined value, as a template literal performs it. An object
read from JSON that has an own field `toString` cannot be converted (its `toString` is not
callable and `Object.prototype.valueOf` returns the object itself): `none`. -/
def jsonToString : Json → Option String
  | .null => some "null"
  | .bool b => some (if b then "true" else "false")
  | .num n => some (toString n)
  | .str s => some s
  | .arr items => joinItems items
  | .obj fields => if fields.any (fun p => p.1 == "toString") then none else some "[object Object]"
termination_by structural v => v
/-- The result of `Array.prototype.join` with the default separator: `null` elements print as
the empty string. -/
def joinItems : List Json → Option String
  | [] => some ""
  | x :: rest =>
    match (match x with | .null => some "" | y => jsonToString y), joinItems rest with
    | some a, some b => some (if rest.isEmpty then a else a ++ "," ++ b)
    | _, _ => none
termination_by structural items => items
end

/-- The string a template literal inserts for `v`. -/
def toStringJs (v : JsValue) : Except JsError String :=
  match v with
  | none => .ok "undefined"
  | some j =>
    match jsonToString j with
    | some s => .ok s
    | none => .error (typeError "Cannot convert object to primitive value")

/-- Truthiness of a value (`NaN` does not occur in JSON). -/
def truthy : JsValue → Bool
  | none => false
  | some .null => false
  | some (.bool b) => b
  | some (.num n) => n != 0
  | some (.str s) => s != ""
  | some _ => true

/-- The own enumerable properties that the spread `...v` copies: the fields of an object, the
indexed elements of an array, the indexed characters of a string, nothing for the other
values. -/
def ownFields : Json → List (String × Json)
  | .obj fields => fields
  | .arr items => items.enum.map (fun p => (toString p.1, p.2))
  | .str s => s.data.enum.map (fun p => (toString p.1, Json.str (String.singleton p.2)))
  | _ => []

/-- Defining the property `key` in an object literal under construction: an existing field
keeps its position and takes the new value, a new field is added last. -/
def setField (key : String) (v : Json) : List (String × Json) → List (String × Json)
  | [] => [(key, v)]
  | (k, x) :: rest => if k = key then (k, v) :: rest else (k, x) :: setField key v rest

/-! ## The network and the scheduler -/

/-- What the scripts read of a `Response`: `ok`, `status`, and the outcome of `json()`. -/
structure Response where
  ok : Bool
  status : Nat
  json : Except JsError Json

/-- The environment of one run.

* `fetch n url` is the outcome of the request to `url` issued when `n` requests had been
  issued before it: a `Response`, or the error the `fetch` promise rejects with.
* `settleTime n i` is the instant at which the `i`-th promise handed to the `Promise.all`
  that is called when `n` requests had been issued before its promises were created settles.
* `toLowerCase` is `String.prototype.toLowerCase`. -/
structure Env where
  fetch : Nat → String → Except JsError Response
  settleTime : Nat → Nat → Nat
  toLowerCase : String → String

/-- Outcome of an asynchronous function: its result and the requests it issued, in order. -/
structure Run (α : Type) where
  result : Except JsError α
  requests : List String

/-- The earliest rejection among the promises `i, i+1, ...` with the given outcomes: its
settling instant and its reason. Of two rejections at the same instant the earlier promise
is taken. -/
def firstRejection {α : Type} (settleTime : Nat → Nat) :
    Nat → List (Except JsError α) → Option (Nat × JsError)
  | _, [] => none
  | i, .ok _ :: rest => firstRejection settleTime (i + 1) rest
  | i, .error e :: rest =>
    match firstRejection settleTime (i + 1) rest with
    | some (t, e') => if t < settleTime i then some (t, e') else some (settleTime i, e)
    | none => some (settleTime i, e)

/-- The fulfilment values of the promises that fulfilled, in order. -/
def fulfilled {α : Type} : List (Except JsError α) → List α
  | [] => []
  | .ok v :: rest => v :: fulfilled rest
  | .error _ :: rest => fulfilled rest

/-- The outcome of `await Promise.all(promises)`: the values in the order of the promises when
all fulfil, otherwise the reason of the rejection that happens first. -/
def promiseAll {α : Type} (settleTime : Nat → Nat) (outcomes : List (Except JsError α)) :
    Except JsError (List α) :=
  match firstRejection settleTime 0 outcomes with
  | some (_, e) => .error e
  | none => .ok (fulfilled outcomes)

/-! ## `00-FetchAPI-JSONPlaceholder/app.js` -/

/-- The object `{ user, posts: postsWithComments }`. -/
structure UserWithPostsAndComments where
  user : Json
  posts : List Json

def usersUrl (userId : String) : String :=
  "https://jsonplaceholder.typicode.com/users/" ++ userId

def postsUrl (userId : String) : String :=
  "https://jsonplaceholder.typicode.com/posts?userId=" ++ userId

def commentsUrl (postId : String) : String :=
  "https://jsonplaceholder.typicode.com/comments?postId=" ++ postId

/-- The text inserted for `post.id` in the callback of `posts.map`: reading `id` throws on
`null`, the conversion throws on an unconvertible object. -/
def postIdText (post : Json) : Except JsError String :=
  match getProp (some post) "id" with
  | .error e => .error e
  | .ok id => toStringJs id

/-- The callback of `posts.map` (lines 25-39) run on `post` when `n` requests have been issued:
it issues the comments request and then fulfils with `{ ...post, comments }` or rejects. -/
def postWithComments (env : Env) (n : Nat) (post : Json) : Run Json :=
  match postIdText post with
  | .error e => ⟨.error e, []⟩
  | .ok id =>
    match env.fetch n (commentsUrl id) with
    | .error e => ⟨.error e, [commentsUrl id]⟩
    | .ok commentsResponse =>
      if !commentsResponse.ok then
        ⟨.error (mkError ("Error al obtener comentarios para el post " ++ id ++ ": "
          ++ toString commentsResponse.status)), [commentsUrl id]⟩
      else
        match commentsResponse.json with
        | .error e => ⟨.error e, [commentsUrl id]⟩
        | .ok comments => ⟨.ok (Json.obj (setField "comments" comments (ownFields post))),
            [commentsUrl id]⟩

/-- The call `posts.map(async (post) => ...)`: every callback runs up to its first `await`, so
the requests are issued in the order of the posts, whatever their outcomes. -/
def mapPosts (env : Env) : Nat → List Json → List (Run Json)
  | _, [] => []
  | n, post :: rest =>
    postWithComments env n post ::
      mapPosts env (n + (postWithComments env n post).requests.length) rest

/-- The body of the `try` block of `getUserWithPostsAndComments` (lines 10-45). -/
def getUserWithPostsAndCommentsTry (env : Env) (userId : JsValue) :
    Run UserWithPostsAndComments :=
  match toStringJs userId with
  | .error e => ⟨.error e, []⟩
  | .ok uid =>
    match env.fetch 0 (usersUrl uid) with
    | .error e => ⟨.error e, [usersUrl uid]⟩
    | .ok userResponse =>
      if !userResponse.ok then
        ⟨.error (mkError ("Error al obtener usuario: " ++ toString userResponse.status)),
          [usersUrl uid]⟩
      else
        match userResponse.json with
        | .error e => ⟨.error e, [usersUrl uid]⟩
        | .ok user =>
          match env.fetch 1 (postsUrl uid) with
          | .error e => ⟨.error e, [usersUrl uid, postsUrl uid]⟩
          | .ok postsResponse =>
            if !postsResponse.ok then
              ⟨.error (mkError ("Error al obtener publicaciones: "
                ++ toString postsResponse.status)), [usersUrl uid, postsUrl uid]⟩
            else
              match postsResponse.json with
              | .error e => ⟨.error e, [usersUrl uid, postsUrl uid]⟩
              | .ok (.arr posts) =>
                let promises := mapPosts env 2 posts
                let requests := [usersUrl uid, postsUrl uid]
                  ++ (promises.map (fun p => p.requests)).flatten
                match promiseAll (env.settleTime 2) (promises.map (fun p => p.result)) with
                | .error e => ⟨.error e, requests⟩
                | .ok postsWithComments => ⟨.ok ⟨user, postsWithComments⟩, requests⟩
              | .ok _ =>
                ⟨.error (typeError "posts.map is not a function"),
                  [usersUrl uid, postsUrl uid]⟩

/-- Outcome of `getUserWithPostsAndComments`: the result or the error thrown, the requests
issued, and the lines written by `console.error`. -/
structure Aggregation where
  result : Except JsError UserWithPostsAndComments
  requests : List String
  console : List String

/-- The function `getUserWithPostsAndComments(userId)` (lines 8-51): the `catch` block logs the
message of the error and throws the same error again. -/
def getUserWithPostsAndComments (env : Env) (userId : JsValue) : Aggregation :=
  match getUserWithPostsAndCommentsTry env userId with
  | ⟨.ok r, requests⟩ => ⟨.ok r, requests, []⟩
  | ⟨.error e, requests⟩ =>
    ⟨.error e, requests, ["Error en getUserWithPostsAndComments: " ++ e.message]⟩

/-! ## `01-FetchAPI-PokeAPI/app.js` -/

/-- The constant `limit` (line 3). -/
def limit : Int := 10

/-- The constant `baseUrl` (line 4). -/
def baseUrl : String := "https://pokeapi.co/api/v2"

def detailUrl (query : String) : String :=
  baseUrl ++ "/pokemon/" ++ query

def listUrl (offset limit : Int) : String :=
  baseUrl ++ "/pokemon?limit=" ++ toString limit ++ "&offset=" ++ toString offset

/-- Line 63: `typeof nameOrId === 'string' ? nameOrId.toLowerCase() : nameOrId`. -/
def normalizeQuery (env : Env) (nameOrId : JsValue) : JsValue :=
  match nameOrId with
  | some (.str s) => some (.str (env.toLowerCase s))
  | v => v

/-- The body of the `try` block of `fetchPokemonDetail` (lines 62-72), run when `n` requests
have been issued. -/
def fetchPokemonDetailTry (env : Env) (n : Nat) (nameOrId : JsValue) : Run Json :=
  match toStringJs (normalizeQuery env nameOrId) with
  | .error e => ⟨.error e, []⟩
  | .ok query =>
    match env.fetch n (detailUrl query) with
    | .error e => ⟨.error e, [detailUrl query]⟩
    | .ok response =>
      if !response.ok then
        ⟨.error (mkError ("Pokémon no encontrado: " ++ toString response.status)),
          [detailUrl query]⟩
      else
        match response.json with
        | .error e => ⟨.error e, [detailUrl query]⟩
        | .ok data => ⟨.ok data, [detailUrl query]⟩

/-- The function `fetchPokemonDetail(nameOrId)` (lines 60-76): the `catch` block throws the
error it caught. -/
def fetchPokemonDetail (env : Env) (n : Nat) (nameOrId : JsValue) : Run Json :=
  match fetchPokemonDetailTry env n nameOrId with
  | ⟨.ok data, requests⟩ => ⟨.ok data, requests⟩
  | ⟨.error error, requests⟩ => ⟨.error error, requests⟩

/-- The object returned by `fetchPokemonList`. -/
structure PokemonPage where
  count : JsValue
  next : JsValue
  previous : JsValue
  results : List Json

/-- The call `data.results.map(pokemon => fetchPokemonDetail(pokemon.name))` (lines 37-39) on
the elements of `data.results`, when `n` requests have been issued. Reading `pokemon.name`
throws out of `map` on a `null` element; otherwise the result lists the outcomes of the promises
created, in order. -/
def mapDetails (env : Env) : Nat → List Json → Run (List (Except JsError Json))
  | _, [] => ⟨.ok [], []⟩
  | n, pokemon :: rest =>
    match getProp (some pokemon) "name" with
    | .error e => ⟨.error e, []⟩
    | .ok name =>
      match mapDetails env (n + (fetchPokemonDetail env n name).requests.length) rest with
      | ⟨.error e, requests⟩ => ⟨.error e, (fetchPokemonDetail env n name).requests ++ requests⟩
      | ⟨.ok promises, requests⟩ =>
        ⟨.ok ((fetchPokemonDetail env n name).result :: promises),
          (fetchPokemonDetail env n name).requests ++ requests⟩

/-- The object literal of lines 43-48. -/
def pageObject (data : Json) (pokemonDetails : List Json) : Except JsError PokemonPage :=
  match getProp (some data) "count" with
  | .error e => .error e
  | .ok count =>
    match getProp (some data) "next" with
    | .error e => .error e
    | .ok next =>
      match getProp (some data) "previous" with
      | .error e => .error e
      | .ok previous => .ok ⟨count, next, previous, pokemonDetails⟩

/-- The body of the `try` block of `fetchPokemonList` (lines 28-48), run when `n` requests have
been issued. -/
def fetchPokemonListTry (env : Env) (n : Nat) (offset limit : Int) : Run PokemonPage :=
  match env.fetch n (listUrl offset limit) with
  | .error e => ⟨.error e, [listUrl offset limit]⟩
  | .ok response =>
    if !response.ok then
      ⟨.error (mkError ("Error en la petición: " ++ toString response.status)),
        [listUrl offset limit]⟩
    else
      match response.json with
      | .error e => ⟨.error e, [listUrl offset limit]⟩
      | .ok data =>
        match getProp (some data) "results" with
        | .error e => ⟨.error e, [listUrl offset limit]⟩
        | .ok (some (.arr results)) =>
          match mapDetails env (n + 1) results with
          | ⟨.error e, requests⟩ => ⟨.error e, listUrl offset limit :: requests⟩
          | ⟨.ok pokemonDetailsPromises, requests⟩ =>
            match promiseAll (env.settleTime (n + 1)) pokemonDetailsPromises with
            | .error e => ⟨.error e, listUrl offset limit :: requests⟩
            | .ok pokemonDetails =>
              ⟨pageObject data pokemonDetails, listUrl offset limit :: requests⟩
        | .ok results =>
          match getProp results "map" with
          | .error e => ⟨.error e, [listUrl offset limit]⟩
          | .ok _ =>
            ⟨.error (typeError "data.results.map is not a function"), [listUrl offset limit]⟩

/-- Outcome of `fetchPokemonList`: the page or the error thrown, the requests issued, and the
message handed to `showError` by the `catch` block. -/
structure ListFetch where
  result : Except JsError PokemonPage
  requests : List String
  shown : Option String

/-- The function `fetchPokemonList(offset, limit)` (lines 26-53). -/
def fetchPokemonList (env : Env) (n : Nat) (offset limit : Int) : ListFetch :=
  match fetchPokemonListTry env n offset limit with
  | ⟨.ok page, requests⟩ => ⟨.ok page, requests, none⟩
  | ⟨.error error, requests⟩ =>
    ⟨.error error, requests, some ("Error al obtener lista de Pokémon: " ++ error.message)⟩

/-- A card appended to `listContainer`: its `dataset.id` and the markup assigned to it. -/
structure Card where
  datasetId : String
  innerHTML : String

/-- The expression
`pokemon.sprites.other['official-artwork'].front_default || pokemon.sprites.front_default`. -/
def imageUrl (pokemon : Json) : Except JsError JsValue :=
  match getProp (some pokemon) "sprites" with
  | .error e => .error e
  | .ok sprites =>
    match getProp sprites "other" with
    | .error e => .error e
    | .ok other =>
      match getProp other "official-artwork" with
      | .error e => .error e
      | .ok artwork =>
        match getProp artwork "front_default" with
        | .error e => .error e
        | .ok frontDefault =>
          if truthy frontDefault then .ok frontDefault else getProp sprites "front_default"

/-- The method call `v.toString()`: it throws on `undefined` and `null`, and on an object whose
own field `toString` hides the method. -/
def callToString (v : JsValue) : Except JsError String :=
  match v with
  | none => .error (typeError "Cannot read properties of undefined (reading toString)")
  | some .null => .error (typeError "Cannot read properties of null (reading toString)")
  | some j =>
    match jsonToString j with
    | some s => .ok s
    | none => .error (typeError "toString is not a function")

/-- The call `s.padStart(3, '0')`. -/
def padStart3 (s : String) : String :=
  String.mk (List.replicate (3 - s.length) '0') ++ s

/-- One round of the `forEach` callback of `displayPokemonList` (lines 86-108): the card that
is appended, or the error thrown before it is. -/
def makeCard (pokemon : Json) : Except JsError Card :=
  match getProp (some pokemon) "id" with
  | .error e => .error e
  | .ok id =>
    match toStringJs id with
    | .error e => .error e
    | .ok datasetId =>
      match imageUrl pokemon with
      | .error e => .error e
      | .ok image =>
        match toStringJs image with
        | .error e => .error e
        | .ok src =>
          match getProp (some pokemon) "name" with
          | .error e => .error e
          | .ok name =>
            match toStringJs name with
            | .error e => .error e
            | .ok nameText =>
              match callToString id with
              | .error e => .error e
              | .ok idText =>
                .ok ⟨datasetId,
                  "\n            <img src=\"" ++ src ++ "\" alt=\"" ++ nameText ++ "\">"
                  ++ "\n            <h3>" ++ nameText ++ "</h3>"
                  ++ "\n            <p>#" ++ padStart3 idText ++ "</p>\n        "⟩

/-- The function `displayPokemonList(pokemonList)` (lines 82-110): the cards in `listContainer`
when it returns or throws, and the error thrown if any. -/
def displayPokemonList : List Json → List Card × Option JsError
  | [] => ([], none)
  | pokemon :: rest =>
    match makeCard pokemon with
    | .error e => ([], some e)
    | .ok card => (card :: (displayPokemonList rest).1, (displayPokemonList rest).2)

/-- The state of the page: the globals `currentOffset` and `currentPage`, the requests issued
so far, and what the scripts write to the document and to the console. The offset and the page
number are integers: the arithmetic of the scripts on them is exact below `2 ^ 53`. -/
structure AppState where
  currentOffset : Int
  currentPage : Int
  requests : List String
  pageInfo : String
  errorText : String
  errorHidden : Bool
  cards : List Card
  nextDisabled : Bool
  prevDisabled : Bool
  console : List (String × JsError)

/-- The page window held by the caller: the offset and the limit of the slice on display. -/
def AppState.window (s : AppState) : Int × Int :=
  (s.currentOffset, limit)

/-- The function `showError(message)` (lines 199-207), up to the timer it starts. -/
def showError (message : String) (s : AppState) : AppState :=
  { s with errorText := message, errorHidden := false }

/-- The function `updatePageInfo()` (lines 238-240). -/
def updatePageInfo (s : AppState) : AppState :=
  { s with pageInfo := "Página " ++ toString s.currentPage }

/-- The state after the `await fetchPokemonList(currentOffset, limit)` of line 247. -/
def afterFetch (f : ListFetch) (s : AppState) : AppState :=
  match f.shown with
  | some message => showError message { s with requests := s.requests ++ f.requests }
  | none => { s with requests := s.requests ++ f.requests }

/-- The function `loadPokemonList()` (lines 245-256). -/
def loadPokemonList (env : Env) (s : AppState) : AppState :=
  match (fetchPokemonList env s.requests.length s.currentOffset limit).result with
  | .error error =>
    { afterFetch (fetchPokemonList env s.requests.length s.currentOffset limit) s with
      console := s.console ++ [("Error al cargar lista:", error)] }
  | .ok data =>
    match (displayPokemonList data.results).2 with
    | some error =>
      { afterFetch (fetchPokemonList env s.requests.length s.currentOffset limit) s with
        cards := (displayPokemonList data.results).1
        console := s.console ++ [("Error al cargar lista:", error)] }
    | none =>
      { afterFetch (fetchPokemonList env s.requests.length s.currentOffset limit) s with
        cards := (displayPokemonList data.results).1
        nextDisabled := !truthy data.next
        prevDisabled := !truthy data.previous }

/-- The function `loadNextPage()` (lines 212-220). -/
def loadNextPage (env : Env) (s : AppState) : AppState :=
  { loadPokemonList env
      (updatePageInfo
        { s with currentOffset := s.currentOffset + limit, currentPage := s.currentPage + 1 })
    with prevDisabled := false }

/-- The function `loadPrevPage()` (lines 225-233). -/
def loadPrevPage (env : Env) (s : AppState) : AppState :=
  let s1 := loadPokemonList env
    (updatePageInfo
      { s with currentOffset := max 0 (s.currentOffset - limit),
               currentPage := max 1 (s.currentPage - 1) })
  { s1 with prevDisabled := (s1.currentOffset == 0) }

/-- The states of the page: it starts with `currentOffset = 0` and `currentPage = 1` (lines 2
and 5) whatever the document holds, `init` loads the list, and every click on a pagination
button runs `loadNextPage` or `loadPrevPage`. The two globals are written at the start of a
handler, before its first `await`, so that their values after a sequence of clicks are those
of the handlers run one after the other. -/
inductive Reachable (env : Env) : AppState → Prop
  | start (s : AppState) : s.currentOffset = 0 → s.currentPage = 1 → Reachable env s
  | load {s : AppState} : Reachable env s → Reachable env (loadPokemonList env s)
  | next {s : AppState} : Reachable env s → Reachable env (loadNextPage env s)
  | prev {s : AppState} : Reachable env s → Reachable env (loadPrevPage env s)

/-! ## Vocabulary of the statements -/

/-- The body received from the request to `url` issued after `n` others, when that request
succeeds: the `fetch` promise fulfils, the response reports `ok`, and `json()` fulfils. -/
def fetchedBody (env : Env) (n : Nat) (url : String) : Option Json :=
  match env.fetch n url with
  | .error _ => none
  | .ok response =>
    if response.ok then
      match response.json with
      | .error _ => none
      | .ok body => some body
    else none

/-- The status of the response to the request to `url` issued after `n` others, when that
response reports a non-success status (`ok` is false). -/
def refusedStatus (env : Env) (n : Nat) (url : String) : Option Nat :=
  match env.fetch n url with
  | .error _ => none
  | .ok response => if response.ok then none else some response.status

/-- Lowercasing of the letters `A`-`Z`, character by character: what
`String.prototype.toLowerCase` does on a string of ASCII characters. -/
def asciiLower (s : String) : String := String.mk (s.data.map Char.toLower)

/-- The detail that `fetchPokemonDetail(pokemon.name)`, called when `n` requests have been
issued, fetches for the item `pokemon` of a page; `none` when the call fails or reading
`pokemon.name` throws. -/
def detailOf (env : Env) (n : Nat) (pokemon : Json) : Option Json :=
  match getProp (some pokemon) "name" with
  | .error _ => none
  | .ok name =>
    match (fetchPokemonDetail env n name).result with
    | .error _ => none
    | .ok detail => some detail

/-! ## Example environments -/

/-- A response with a success status and the given body. -/
def okResponse (body : Json) : Response := ⟨true, 200, .ok body⟩

/-- A response with status 404. -/
def notFoundResponse : Response := ⟨false, 404, .ok (Json.obj [])⟩

def examplePost1 : Json :=
  Json.obj [("userId", Json.num 1), ("id", Json.num 1), ("title", Json.str "first")]

def examplePost2 : Json :=
  Json.obj [("userId", Json.num 1), ("id", Json.num 2), ("title", Json.str "second")]

def exampleUser : Json :=
  Json.obj [("id", Json.num 1), ("name", Json.str "Leanne Graham")]

def exampleComment : Json :=
  Json.obj [("postId", Json.num 1), ("id", Json.num 1), ("body", Json.str "laudantium")]

/-- A server with user 1, that user's two posts, and one comment on post 1; promises settle
in the order of their creation. -/
def exampleEnv : Env where
  fetch := fun _ url =>
    if url = usersUrl "1" then .ok (okResponse exampleUser)
    else if url = postsUrl "1" then .ok (okResponse (Json.arr [examplePost1, examplePost2]))
    else if url = commentsUrl "1" then .ok (okResponse (Json.arr [exampleComment]))
    else if url = commentsUrl "2" then .ok (okResponse (Json.arr []))
    else .ok notFoundResponse
  settleTime := fun _ i => i
  toLowerCase := asciiLower

/-- The server of `exampleEnv`, except that the comments of post 2 are not found. -/
def missingCommentsEnv : Env where
  fetch := fun _ url =>
    if url = usersUrl "1" then .ok (okResponse exampleUser)
    else if url = postsUrl "1" then .ok (okResponse (Json.arr [examplePost1, examplePost2]))
    else if url = commentsUrl "1" then .ok (okResponse (Json.arr [exampleComment]))
    else .ok notFoundResponse
  settleTime := fun _ i => i
  toLowerCase := asciiLower

/-- A post that has a field `comments` of its own. -/
def annotatedPost : Json :=
  Json.obj [("id", Json.num 7), ("comments", Json.str "closed")]

/-- A server whose user 1 has the single post `annotatedPost`, on which there is no comment. -/
def annotatedEnv : Env where
  fetch := fun _ url =>
    if url = usersUrl "1" then .ok (okResponse exampleUser)
    else if url = postsUrl "1" then .ok (okResponse (Json.arr [annotatedPost]))
    else if url = commentsUrl "7" then .ok (okResponse (Json.arr []))
    else .ok notFoundResponse
  settleTime := fun _ i => i
  toLowerCase := asciiLower

def bulbasaur : Json :=
  Json.obj [("id", Json.num 1), ("name", Json.str "bulbasaur"),
    ("sprites", Json.obj [("front_default", Json.str "https://img.example/1.png"),
      ("other", Json.obj [("official-artwork",
        Json.obj [("front_default", Json.str "https://img.example/art/1.png")])])])]

def pikachu : Json :=
  Json.obj [("id", Json.num 25), ("name", Json.str "pikachu"),
    ("sprites", Json.obj [("front_default", Json.str "https://img.example/25.png"),
      ("other", Json.obj [("official-artwork",
        Json.obj [("front_default", Json.str "https://img.example/art/25.png")])])])]

/-- A page of two items out of 1302, the last one by the report of the server: `next` and
`previous` are `null`. -/
def examplePage : Json :=
  Json.obj [("count", Json.num 1302), ("next", Json.null), ("previous", Json.null),
    ("results", Json.arr [Json.obj [("name", Json.str "bulbasaur")],
      Json.obj [("name", Json.str "Pikachu")]])]

/-- A server that answers the list request for the window (0, 10) with `examplePage` and
knows the details of `bulbasaur` and `pikachu`, the latter also by its number. -/
def pokeEnv : Env where
  fetch := fun _ url =>
    if url = listUrl 0 10 then .ok (okResponse examplePage)
    else if url = detailUrl "bulbasaur" then .ok (okResponse bulbasaur)
    else if url = detailUrl "pikachu" then .ok (okResponse pikachu)
    else if url = detailUrl "25" then .ok (okResponse pikachu)
    else .ok notFoundResponse
  settleTime := fun _ i => i
  toLowerCase := asciiLower

/-- The server of `pokeEnv` without the detail of `pikachu`. -/
def lostEnv : Env where
  fetch := fun _ url =>
    if url = listUrl 0 10 then .ok (okResponse examplePage)
    else if url = detailUrl "bulbasaur" then .ok (okResponse bulbasaur)
    else .ok notFoundResponse
  settleTime := fun _ i => i
  toLowerCase := asciiLower

/-- The error `json()` rejects with on a body that is not JSON. -/
def unreadableBody : JsError := ⟨"SyntaxError", "Unexpected token < in JSON at position 0"⟩

/-- A server that answers every request with status 200 and a body that is not JSON. -/
def htmlEnv : Env where
  fetch := fun _ _ => .ok ⟨true, 200, .error unreadableBody⟩
  settleTime := fun _ i => i
  toLowerCase := asciiLower

/-- The page when the script starts, with both pagination buttons disabled. -/
def startState : AppState where
  currentOffset := 0
  currentPage := 1
  requests := []
  pageInfo := ""
  errorText := ""
  errorHidden := true
  cards := []
  nextDisabled := true
  prevDisabled := true
  console := []

/-! ## Lemmas on the helpers -/

theorem fetchedBody_eq_some {env : Env} {n : Nat} {url : String} {body : Json}
    (h : fetchedBody env n url = some body) :
    ∃ r, env.fetch n url = .ok r ∧ r.ok = true ∧ r.json = .ok body := by
  unfold fetchedBody at h
  split at h
  · cases h
  · rename_i r hr
    split at h
    · rename_i hok
      split at h
      · cases h
      · rename_i b hb
        cases h
        exact ⟨r, hr, hok, hb⟩
    · cases h

theorem refusedStatus_eq_some {env : Env} {n : Nat} {url : String} {status : Nat}
    (h : refusedStatus env n url = some status) :
    ∃ r, env.fetch n url = .ok r ∧ r.ok = false ∧ r.status = status := by
  unfold refusedStatus at h
  split at h
  · cases h
  · rename_i r hr
    split at h
    · cases h
    · rename_i hok
      cases h
      exact ⟨r, hr, by simpa using hok, rfl⟩

theorem lookup_setField (key : String) (v : Json) (fields : List (String × Json)) (k : String) :
    (setField key v fields).lookup k = if k = key then some v else fields.lookup k := by
  induction fields with
  | nil =>
    by_cases h : k = key
    · simp [setField, List.lookup, h]
    · have : (k == key) = false := by simpa using h
      simp [setField, List.lookup, h, this]
  | cons p rest ih =>
    obtain ⟨k0, x⟩ := p
    by_cases h0 : k0 = key
    · by_cases h : k = key
      · simp [setField, List.lookup, h0, h]
      · have : (k == key) = false := by simpa using h
        simp [setField, List.lookup, h0, h, this]
    · by_cases h1 : k = k0
      · subst h1
        simp [setField, List.lookup, h0]
      · have : (k == k0) = false := by simpa using h1
        simp [setField, List.lookup, h0, this, ih]

theorem firstRejection_all_ok {α : Type} (st : Nat → Nat) (values : List α) (i : Nat) :
    firstRejection st i (values.map Except.ok) = none := by
  induction values generalizing i with
  | nil => rfl
  | cons v rest ih => simpa [firstRejection] using ih (i + 1)

theorem fulfilled_all_ok {α : Type} (values : List α) :
    fulfilled (values.map (Except.ok : α → Except JsError α)) = values := by
  induction values with
  | nil => rfl
  | cons v rest ih => simp [fulfilled, ih]

theorem promiseAll_all_ok {α : Type} (st : Nat → Nat) (values : List α) :
    promiseAll st (values.map Except.ok) = .ok values := by
  simp [promiseAll, firstRejection_all_ok, fulfilled_all_ok]

/-- A batch with a rejected promise has a first rejection. -/
theorem firstRejection_isSome {α : Type} (st : Nat → Nat) (outcomes : List (Except JsError α))
    (i : Nat) (e : JsError) (h : Except.error e ∈ outcomes) :
    ∃ t e', firstRejection st i outcomes = some (t, e') := by
  induction outcomes generalizing i with
  | nil => cases h
  | cons o rest ih =>
    cases o with
    | ok v =>
      have h' : Except.error e ∈ rest := by
        rcases List.mem_cons.mp h with h1 | h1
        · cases h1
        · exact h1
      simpa [firstRejection] using ih (i + 1) h'
    | error e0 =>
      simp only [firstRejection]
      cases hfr : firstRejection st (i + 1) rest with
      | none => exact ⟨_, _, rfl⟩
      | some p =>
        obtain ⟨t, e'⟩ := p
        by_cases ht : t < st i
        · exact ⟨t, e', by simp [ht]⟩
        · exact ⟨st i, e0, by simp [ht]⟩

theorem promiseAll_of_mem_error {α : Type} (st : Nat → Nat)
    (outcomes : List (Except JsError α)) (e : JsError) (h : Except.error e ∈ outcomes) :
    ∃ e', promiseAll st outcomes = .error e' := by
  obtain ⟨t, e', hfr⟩ := firstRejection_isSome st outcomes 0 e h
  exact ⟨e', by simp [promiseAll, hfr]⟩

/-- A batch in which one promise rejects and the others fulfil rejects with its reason. -/
theorem firstRejection_single {α : Type} (st : Nat → Nat) (before after : List α) (e : JsError)
    (i : Nat) :
    firstRejection st i (before.map Except.ok ++ Except.error e :: after.map Except.ok)
      = some (st (i + before.length), e) := by
  induction before generalizing i with
  | nil => simp [firstRejection, firstRejection_all_ok]
  | cons v rest ih =>
    have harith : i + 1 + rest.length = i + (rest.length + 1) := by omega
    have hrec := ih (i + 1)
    rw [harith] at hrec
    simpa [firstRejection] using hrec

theorem promiseAll_single {α : Type} (st : Nat → Nat) (before after : List α) (e : JsError) :
    promiseAll st (before.map Except.ok ++ Except.error e :: after.map Except.ok)
      = .error e := by
  simp [promiseAll, firstRejection_single]

/-! ## Lemmas on `getUserWithPostsAndComments` -/

theorem postWithComments_of_fetched {env : Env} {n : Nat} {post : Json} {id : String}
    {comments : Json} (hid : postIdText post = .ok id)
    (hbody : fetchedBody env n (commentsUrl id) = some comments) :
    postWithComments env n post
      = ⟨.ok (Json.obj (setField "comments" comments (ownFields post))), [commentsUrl id]⟩ := by
  obtain ⟨r, hr, hok, hjson⟩ := fetchedBody_eq_some hbody
  simp [postWithComments, hid, hr, hok, hjson]

theorem postWithComments_of_refused {env : Env} {n : Nat} {post : Json} {id : String}
    {status : Nat} (hid : postIdText post = .ok id)
    (hstatus : refusedStatus env n (commentsUrl id) = some status) :
    postWithComments env n post
      = ⟨.error (mkError ("Error al obtener comentarios para el post " ++ id ++ ": "
          ++ toString status)), [commentsUrl id]⟩ := by
  obtain ⟨r, hr, hok, hst⟩ := refusedStatus_eq_some hstatus
  simp [postWithComments, hid, hr, hok, hst]

/-- When every callback gets its comments, the promises of `mapPosts` all fulfil, each with
its post extended by the comments received, and each callback issues one request. -/
theorem mapPosts_all_fetched (env : Env) (posts : List Json) (n : Nat)
    (h : ∀ i post, posts[i]? = some post → ∃ id comments, postIdText post = .ok id ∧
      fetchedBody env (n + i) (commentsUrl id) = some comments) :
    ∃ out : List Json,
      (mapPosts env n posts).map (fun p => p.result) = out.map Except.ok ∧
      ((mapPosts env n posts).map (fun p => p.requests)).flatten.length = posts.length ∧
      out.length = posts.length ∧
      ∀ i post, posts[i]? = some post → ∃ id comments, postIdText post = .ok id ∧
        fetchedBody env (n + i) (commentsUrl id) = some comments ∧
        out[i]? = some (Json.obj (setField "comments" comments (ownFields post))) := by
  induction posts generalizing n with
  | nil => exact ⟨[], rfl, rfl, rfl, by intro i post hp; simp at hp⟩
  | cons p rest ih =>
    obtain ⟨id, c, hid, hc⟩ := h 0 p (by simp)
    rw [Nat.add_zero] at hc
    have hrun := postWithComments_of_fetched hid hc
    have hrest : ∀ i post, rest[i]? = some post → ∃ id comments, postIdText post = .ok id ∧
        fetchedBody env (n + 1 + i) (commentsUrl id) = some comments := by
      intro i post hp
      obtain ⟨id', c', h1, h2⟩ := h (i + 1) post (by simpa using hp)
      exact ⟨id', c', h1, by rw [Nat.add_assoc, Nat.add_comm 1 i]; exact h2⟩
    obtain ⟨out, hout, hreq, hlen, hget⟩ := ih (n + 1) hrest
    refine ⟨Json.obj (setField "comments" c (ownFields p)) :: out, ?_, ?_, ?_, ?_⟩
    · simp [mapPosts, hrun, hout]
    · simp [mapPosts, hrun, hreq]
    · simp [hlen]
    · intro i post hp
      cases i with
      | zero =>
        have : p = post := by simpa using hp
        subst this
        exact ⟨id, c, hid, by simpa using hc, by simp⟩
      | succ i =>
        obtain ⟨id', c', h1, h2, h3⟩ := hget i post (by simpa using hp)
        exact ⟨id', c', h1, by rw [Nat.add_assoc, Nat.add_comm 1 i] at h2; exact h2,
          by simpa using h3⟩

/-- When one callback is answered with a non-success status and every other one gets its
comments, exactly one promise of `mapPosts` rejects, with the error of line 29. -/
theorem mapPosts_one_refused (env : Env) (posts : List Json) (n j : Nat) (failing : Json)
    (id : String) (status : Nat)
    (hj : posts[j]? = some failing) (hid : postIdText failing = .ok id)
    (hstatus : refusedStatus env (n + j) (commentsUrl id) = some status)
    (h : ∀ i post, i ≠ j → posts[i]? = some post → ∃ id comments, postIdText post = .ok id ∧
      fetchedBody env (n + i) (commentsUrl id) = some comments) :
    ∃ before after : List Json,
      (mapPosts env n posts).map (fun p => p.result)
        = before.map Except.ok
          ++ Except.error (mkError ("Error al obtener comentarios para el post " ++ id ++ ": "
              ++ toString status)) :: after.map Except.ok := by
  induction posts generalizing n j with
  | nil => simp at hj
  | cons p rest ih =>
    cases j with
    | zero =>
      have hp : p = failing := by simpa using hj
      subst hp
      rw [Nat.add_zero] at hstatus
      have hrun := postWithComments_of_refused hid hstatus
      have hrest : ∀ i post, rest[i]? = some post → ∃ id comments, postIdText post = .ok id ∧
          fetchedBody env (n + 1 + i) (commentsUrl id) = some comments := by
        intro i post hp
        obtain ⟨id', c', h1, h2⟩ := h (i + 1) post (by omega) (by simpa using hp)
        exact ⟨id', c', h1, by rw [Nat.add_assoc, Nat.add_comm 1 i]; exact h2⟩
      obtain ⟨out, hout, -, -, -⟩ := mapPosts_all_fetched env rest (n + 1) hrest
      exact ⟨[], out, by simp [mapPosts, hrun, hout]⟩
    | succ j =>
      obtain ⟨id0, c0, hid0, hc0⟩ := h 0 p (by omega) (by simp)
      rw [Nat.add_zero] at hc0
      have hrun := postWithComments_of_fetched hid0 hc0
      have hrest : ∀ i post, i ≠ j → rest[i]? = some post → ∃ id comments,
          postIdText post = .ok id ∧
          fetchedBody env (n + 1 + i) (commentsUrl id) = some comments := by
        intro i post hne hp
        obtain ⟨id', c', h1, h2⟩ := h (i + 1) post (by omega) (by simpa using hp)
        exact ⟨id', c', h1, by rw [Nat.add_assoc, Nat.add_comm 1 i]; exact h2⟩
      have hstatus' : refusedStatus env (n + 1 + j) (commentsUrl id) = some status := by
        rw [Nat.add_assoc, Nat.add_comm 1 j]; exact hstatus
      obtain ⟨before, after, hmap⟩ := ih (n + 1) j (by simpa using hj) hstatus' hrest
      exact ⟨Json.obj (setField "comments" c0 (ownFields p)) :: before, after,
        by simp [mapPosts, hrun, hmap]⟩

/-- The state of `getUserWithPostsAndComments` once the user and the posts are received. -/
theorem getUserWithPostsAndCommentsTry_of_posts {env : Env} {userId : JsValue} {uid : String}
    {user : Json} {posts : List Json} (huid : toStringJs userId = .ok uid)
    (huser : fetchedBody env 0 (usersUrl uid) = some user)
    (hposts : fetchedBody env 1 (postsUrl uid) = some (Json.arr posts)) :
    getUserWithPostsAndCommentsTry env userId =
      match promiseAll (env.settleTime 2) ((mapPosts env 2 posts).map (fun p => p.result)) with
      | .error e => ⟨.error e, [usersUrl uid, postsUrl uid]
          ++ ((mapPosts env 2 posts).map (fun p => p.requests)).flatten⟩
      | .ok postsWithComments => ⟨.ok ⟨user, postsWithComments⟩, [usersUrl uid, postsUrl uid]
          ++ ((mapPosts env 2 posts).map (fun p => p.requests)).flatten⟩ := by
  obtain ⟨r0, hr0, hok0, hjson0⟩ := fetchedBody_eq_some huser
  obtain ⟨r1, hr1, hok1, hjson1⟩ := fetchedBody_eq_some hposts
  simp [getUserWithPostsAndCommentsTry, huid, hr0, hok0, hjson0, hr1, hok1, hjson1]

/-! ## `getUserWithPostsAndComments`: the claims -/

/-- C1, as amended: when the user request, the posts request and the comments request of every
post succeed and the posts response is an array of `N` posts, `getUserWithPostsAndComments`
returns the user and exactly `N` posts, the `i`-th being an object whose field `comments` is
the body received for the `i`-th post and whose every other field is the field of the `i`-th
post of the response, with its value. -/
theorem aggregate_children_enriched_in_order (env : Env) (userId : JsValue) (uid : String)
    (user : Json) (posts : List Json)
    (huid : toStringJs userId = .ok uid)
    (huser : fetchedBody env 0 (usersUrl uid) = some user)
    (hposts : fetchedBody env 1 (postsUrl uid) = some (Json.arr posts))
    (hcomments : ∀ i post, posts[i]? = some post → ∃ id comments, postIdText post = .ok id ∧
      fetchedBody env (2 + i) (commentsUrl id) = some comments) :
    ∃ r, (getUserWithPostsAndComments env userId).result = .ok r ∧
      r.user = user ∧ r.posts.length = posts.length ∧
      ∀ i post, posts[i]? = some post → ∃ id comments fields,
        postIdText post = .ok id ∧
        fetchedBody env (2 + i) (commentsUrl id) = some comments ∧
        r.posts[i]? = some (Json.obj fields) ∧
        ∀ key, fields.lookup key
          = if key = "comments" then some comments else (ownFields post).lookup key := by
  obtain ⟨out, hout, -, hlen, hget⟩ := mapPosts_all_fetched env posts 2 hcomments
  have htry := getUserWithPostsAndCommentsTry_of_posts huid huser hposts
  rw [hout, promiseAll_all_ok] at htry
  refine ⟨⟨user, out⟩, ?_, rfl, hlen, ?_⟩
  · simp [getUserWithPostsAndComments, htry]
  · intro i post hp
    obtain ⟨id, c, h1, h2, h3⟩ := hget i post hp
    exact ⟨id, c, _, h1, h2, h3, fun key => lookup_setField "comments" c (ownFields post) key⟩

/-- C2: when the user request is answered with a non-success status,
`getUserWithPostsAndComments` throws the error of line 13 and the user request is the only
request it has issued. -/
theorem root_failure_stops_aggregate (env : Env) (userId : JsValue) (uid : String)
    (status : Nat) (huid : toStringJs userId = .ok uid)
    (hstatus : refusedStatus env 0 (usersUrl uid) = some status) :
    (getUserWithPostsAndComments env userId).result
        = .error (mkError ("Error al obtener usuario: " ++ toString status)) ∧
      (getUserWithPostsAndComments env userId).requests = [usersUrl uid] := by
  obtain ⟨r, hr, hok, hst⟩ := refusedStatus_eq_some hstatus
  simp [getUserWithPostsAndComments, getUserWithPostsAndCommentsTry, huid, hr, hok, hst]

/-- C3: when the user and the posts are received, the comments request of one post is answered
with a non-success status and the comments request of every other post succeeds,
`getUserWithPostsAndComments` throws the error of line 29 for that post and returns no
result. -/
theorem one_refused_subfetch_fails_aggregate (env : Env) (userId : JsValue) (uid : String)
    (user : Json) (posts : List Json) (j : Nat) (failing : Json) (id : String) (status : Nat)
    (huid : toStringJs userId = .ok uid)
    (huser : fetchedBody env 0 (usersUrl uid) = some user)
    (hposts : fetchedBody env 1 (postsUrl uid) = some (Json.arr posts))
    (hj : posts[j]? = some failing) (hid : postIdText failing = .ok id)
    (hstatus : refusedStatus env (2 + j) (commentsUrl id) = some status)
    (hothers : ∀ i post, i ≠ j → posts[i]? = some post → ∃ id comments,
      postIdText post = .ok id ∧ fetchedBody env (2 + i) (commentsUrl id) = some comments) :
    (getUserWithPostsAndComments env userId).result
        = .error (mkError ("Error al obtener comentarios para el post " ++ id ++ ": "
            ++ toString status)) ∧
      ∀ r, (getUserWithPostsAndComments env userId).result ≠ .ok r := by
  obtain ⟨before, after, hmap⟩ :=
    mapPosts_one_refused env posts 2 j failing id status hj hid hstatus hothers
  have htry := getUserWithPostsAndCommentsTry_of_posts huid huser hposts
  rw [hmap, promiseAll_single] at htry
  have hres : (getUserWithPostsAndComments env userId).result
      = .error (mkError ("Error al obtener comentarios para el post " ++ id ++ ": "
          ++ toString status)) := by
    simp [getUserWithPostsAndComments, htry]
  refine ⟨hres, ?_⟩
  intro r hr
  rw [hres] at hr
  cases hr

/-- C1 fails as stated: every request succeeds and the single post of the response has a field
`comments` with the value `"closed"`, yet in the result that field of the post holds the
comments received, not its original value. -/
theorem aggregate_replaces_own_comments_field :
    fetchedBody annotatedEnv 0 (usersUrl "1") = some exampleUser ∧
    fetchedBody annotatedEnv 1 (postsUrl "1") = some (Json.arr [annotatedPost]) ∧
    postIdText annotatedPost = .ok "7" ∧
    fetchedBody annotatedEnv 2 (commentsUrl "7") = some (Json.arr []) ∧
    (ownFields annotatedPost).lookup "comments" = some (Json.str "closed") ∧
    (getUserWithPostsAndComments annotatedEnv (some (Json.num 1))).result
      = .ok ⟨exampleUser, [Json.obj [("id", Json.num 7), ("comments", Json.arr [])]]⟩ ∧
    [("id", Json.num 7), ("comments", Json.arr [])].lookup "comments"
      ≠ some (Json.str "closed") := by
  refine ⟨rfl, rfl, rfl, rfl, rfl, rfl, ?_⟩
  intro h
  cases h

/-- User 1 of the example server: two posts, each returned with its comments. -/
theorem aggregate_children_enriched_in_order_witness :
    ∃ r, (getUserWithPostsAndComments exampleEnv (some (Json.num 1))).result = .ok r ∧
      r.user = exampleUser ∧ r.posts.length = [examplePost1, examplePost2].length ∧
      ∀ i post, [examplePost1, examplePost2][i]? = some post → ∃ id comments fields,
        postIdText post = .ok id ∧
        fetchedBody exampleEnv (2 + i) (commentsUrl id) = some comments ∧
        r.posts[i]? = some (Json.obj fields) ∧
        ∀ key, fields.lookup key
          = if key = "comments" then some comments else (ownFields post).lookup key :=
  aggregate_children_enriched_in_order exampleEnv (some (Json.num 1)) "1" exampleUser
    [examplePost1, examplePost2] rfl rfl rfl
    (by
      intro i post hp
      rcases i with _ | _ | i
      · cases hp
        exact ⟨"1", Json.arr [exampleComment], rfl, rfl⟩
      · cases hp
        exact ⟨"2", Json.arr [], rfl, rfl⟩
      · simp at hp)

/-- User 9 is unknown to the example server: one request, one error. -/
theorem root_failure_stops_aggregate_witness :
    (getUserWithPostsAndComments exampleEnv (some (Json.num 9))).result
        = .error (mkError ("Error al obtener usuario: " ++ toString 404)) ∧
      (getUserWithPostsAndComments exampleEnv (some (Json.num 9))).requests = [usersUrl "9"] :=
  root_failure_stops_aggregate exampleEnv (some (Json.num 9)) "9" 404 rfl rfl

/-- The comments of the second of two posts are not found: the aggregation fails. -/
theorem one_refused_subfetch_fails_aggregate_witness :
    (getUserWithPostsAndComments missingCommentsEnv (some (Json.num 1))).result
        = .error (mkError ("Error al obtener comentarios para el post " ++ "2" ++ ": "
            ++ toString 404)) ∧
      ∀ r, (getUserWithPostsAndComments missingCommentsEnv (some (Json.num 1))).result ≠ .ok r :=
  one_refused_subfetch_fails_aggregate missingCommentsEnv (some (Json.num 1)) "1" exampleUser
    [examplePost1, examplePost2] 1 examplePost2 "2" 404 rfl rfl rfl rfl rfl rfl
    (by
      intro i post hne hp
      rcases i with _ | _ | i
      · cases hp
        exact ⟨"1", Json.arr [exampleComment], rfl, rfl⟩
      · exact absurd rfl hne
      · simp at hp)

/-! ## Lemmas on the page navigation -/

theorem afterFetch_currentOffset (f : ListFetch) (s : AppState) :
    (afterFetch f s).currentOffset = s.currentOffset := by
  unfold afterFetch
  split <;> rfl

theorem afterFetch_currentPage (f : ListFetch) (s : AppState) :
    (afterFetch f s).currentPage = s.currentPage := by
  unfold afterFetch
  split <;> rfl

theorem loadPokemonList_currentOffset (env : Env) (s : AppState) :
    (loadPokemonList env s).currentOffset = s.currentOffset := by
  unfold loadPokemonList
  split
  · exact afterFetch_currentOffset _ s
  · split
    · exact afterFetch_currentOffset _ s
    · exact afterFetch_currentOffset _ s

theorem loadPokemonList_currentPage (env : Env) (s : AppState) :
    (loadPokemonList env s).currentPage = s.currentPage := by
  unfold loadPokemonList
  split
  · exact afterFetch_currentPage _ s
  · split
    · exact afterFetch_currentPage _ s
    · exact afterFetch_currentPage _ s

theorem loadNextPage_currentOffset (env : Env) (s : AppState) :
    (loadNextPage env s).currentOffset = s.currentOffset + limit := by
  simp [loadNextPage, loadPokemonList_currentOffset, updatePageInfo]

theorem loadNextPage_currentPage (env : Env) (s : AppState) :
    (loadNextPage env s).currentPage = s.currentPage + 1 := by
  simp [loadNextPage, loadPokemonList_currentPage, updatePageInfo]

theorem loadPrevPage_currentOffset (env : Env) (s : AppState) :
    (loadPrevPage env s).currentOffset = max 0 (s.currentOffset - limit) := by
  simp [loadPrevPage, loadPokemonList_currentOffset, updatePageInfo]

theorem loadPrevPage_currentPage (env : Env) (s : AppState) :
    (loadPrevPage env s).currentPage = max 1 (s.currentPage - 1) := by
  simp [loadPrevPage, loadPokemonList_currentPage, updatePageInfo]

/-! ## The page window: the claims -/

/-- C4: from a window with a non-negative offset, `loadNextPage` followed by `loadPrevPage`
leads to the same window: the same offset and the same limit, which is 10. -/
theorem advance_then_retreat_restores_window (env : Env) (s : AppState)
    (h : 0 ≤ s.currentOffset) :
    (loadPrevPage env (loadNextPage env s)).window = s.window ∧
      (loadPrevPage env (loadNextPage env s)).window.2 = 10 := by
  refine ⟨?_, rfl⟩
  have hback : max 0 (s.currentOffset + limit - limit) = s.currentOffset := by
    rw [add_sub_cancel_right]
    exact max_eq_right h
  simp only [AppState.window, loadPrevPage_currentOffset, loadNextPage_currentOffset, hback]

/-- C5: in every state reached from the start of the page by `loadPokemonList`, `loadNextPage`
and `loadPrevPage`, the offset of the window is not negative and its limit is 10, and
`loadPrevPage` run at offset 0 leaves the window as it is. -/
theorem window_offset_never_negative (env : Env) (s : AppState) (h : Reachable env s) :
    0 ≤ s.window.1 ∧ s.window.2 = 10 ∧
      (s.window.1 = 0 → (loadPrevPage env s).window = s.window) := by
  have hnonneg : 0 ≤ s.currentOffset := by
    induction h with
    | start s h0 _ => rw [h0]
    | load _ ih => rw [loadPokemonList_currentOffset]; exact ih
    | next _ ih =>
      rw [loadNextPage_currentOffset]
      have : (0 : Int) ≤ limit := by decide
      omega
    | prev _ _ =>
      rw [loadPrevPage_currentOffset]
      exact le_max_left _ _
  refine ⟨hnonneg, rfl, ?_⟩
  intro h0
  simp only [AppState.window] at h0
  simp only [AppState.window, loadPrevPage_currentOffset, h0, limit]
  rfl

/-- C10: in every state reached from the start of the page by `loadPokemonList`,
`loadNextPage` and `loadPrevPage`, whatever the outcomes of the requests,
`currentOffset = (currentPage - 1) * limit` and `currentPage` is at least 1. -/
theorem page_number_in_step_with_offset (env : Env) (s : AppState) (h : Reachable env s) :
    s.currentOffset = (s.currentPage - 1) * limit ∧ 1 ≤ s.currentPage := by
  induction h with
  | start s h0 h1 => rw [h0, h1]; decide
  | load _ ih =>
    rw [loadPokemonList_currentOffset, loadPokemonList_currentPage]
    exact ih
  | next _ ih =>
    rw [loadNextPage_currentOffset, loadNextPage_currentPage]
    obtain ⟨h1, h2⟩ := ih
    simp only [limit] at h1 ⊢
    constructor <;> omega
  | prev _ ih =>
    rw [loadPrevPage_currentOffset, loadPrevPage_currentPage]
    obtain ⟨h1, h2⟩ := ih
    simp only [limit] at h1 ⊢
    constructor <;> omega

/-- One page forward and one page back from the start. -/
theorem advance_then_retreat_restores_window_witness :
    (loadPrevPage pokeEnv (loadNextPage pokeEnv startState)).window = (0, 10) ∧
      (loadPrevPage pokeEnv (loadNextPage pokeEnv startState)).window.2 = 10 :=
  advance_then_retreat_restores_window pokeEnv startState (by decide)

/-- One page back from the start. -/
theorem window_offset_never_negative_witness :
    0 ≤ (loadPrevPage pokeEnv startState).window.1 ∧
      (loadPrevPage pokeEnv startState).window.2 = 10 ∧
      ((loadPrevPage pokeEnv startState).window.1 = 0 →
        (loadPrevPage pokeEnv (loadPrevPage pokeEnv startState)).window
          = (loadPrevPage pokeEnv startState).window) :=
  window_offset_never_negative pokeEnv (loadPrevPage pokeEnv startState)
    (Reachable.prev (Reachable.start startState rfl rfl))

/-- One page forward from the start. -/
theorem page_number_in_step_with_offset_witness :
    (loadNextPage pokeEnv startState).currentOffset
        = ((loadNextPage pokeEnv startState).currentPage - 1) * limit ∧
      1 ≤ (loadNextPage pokeEnv startState).currentPage :=
  page_number_in_step_with_offset pokeEnv (loadNextPage pokeEnv startState)
    (Reachable.next (Reachable.start startState rfl rfl))

/-! ## Lemmas on `fetchPokemonDetail` and `fetchPokemonList` -/

theorem fetchPokemonDetail_eq_try (env : Env) (n : Nat) (nameOrId : JsValue) :
    fetchPokemonDetail env n nameOrId = fetchPokemonDetailTry env n nameOrId := by
  unfold fetchPokemonDetail
  rcases fetchPokemonDetailTry env n nameOrId with ⟨result, requests⟩
  cases result <;> rfl

theorem fetchPokemonDetail_result_ok_iff (env : Env) (n : Nat) (nameOrId : JsValue)
    (data : Json) :
    (fetchPokemonDetail env n nameOrId).result = .ok data ↔
      ∃ query, toStringJs (normalizeQuery env nameOrId) = .ok query ∧
        fetchedBody env n (detailUrl query) = some data := by
  rw [fetchPokemonDetail_eq_try]
  unfold fetchPokemonDetailTry fetchedBody
  cases hq : toStringJs (normalizeQuery env nameOrId) with
  | error e => simp
  | ok query =>
    cases hf : env.fetch n (detailUrl query) with
    | error e => simp [hf]
    | ok response =>
      cases hok : response.ok with
      | false => simp [hf, hok]
      | true =>
        cases hjson : response.json with
        | error e => simp [hf, hok, hjson]
        | ok body => simp [hf, hok, hjson]

theorem fetchPokemonDetail_requests_of_ok {env : Env} {n : Nat} {nameOrId : JsValue}
    {data : Json} (h : (fetchPokemonDetail env n nameOrId).result = .ok data) :
    (fetchPokemonDetail env n nameOrId).requests.length = 1 := by
  obtain ⟨query, hq, hbody⟩ := (fetchPokemonDetail_result_ok_iff env n nameOrId data).mp h
  obtain ⟨r, hr, hok, hjson⟩ := fetchedBody_eq_some hbody
  rw [fetchPokemonDetail_eq_try]
  simp [fetchPokemonDetailTry, hq, hr, hok, hjson]

theorem fetchPokemonDetail_requests_of_query {env : Env} {n : Nat} {nameOrId : JsValue}
    {query : String} (hq : toStringJs (normalizeQuery env nameOrId) = .ok query) :
    (fetchPokemonDetail env n nameOrId).requests = [detailUrl query] := by
  rw [fetchPokemonDetail_eq_try]
  unfold fetchPokemonDetailTry
  rw [hq]
  cases hf : env.fetch n (detailUrl query) with
  | error e => simp [hf]
  | ok response =>
    cases hok : response.ok with
    | false => simp [hf, hok]
    | true =>
      cases hjson : response.json with
      | error e => simp [hf, hok, hjson]
      | ok body => simp [hf, hok, hjson]

/-- C9, as amended: for an identifier that converts to text, as every string and every number
does, `fetchPokemonDetail` issues exactly one request. It returns the body of the response
when the request is answered, the status is a success status and the body is read as JSON.
It fails exactly when the status is a non-success status, the transport fails, or the body
cannot be read: with the error of line 68, the error of the transport, the error of `json()`.
The `catch` block hands on the error of the `try` block as it is. -/
theorem fetchDetail_outcome (env : Env) (n : Nat) (nameOrId : JsValue) (query : String)
    (hq : toStringJs (normalizeQuery env nameOrId) = .ok query) :
    (fetchPokemonDetail env n nameOrId).requests = [detailUrl query] ∧
    fetchPokemonDetail env n nameOrId = fetchPokemonDetailTry env n nameOrId ∧
    (∀ data, (fetchPokemonDetail env n nameOrId).result = .ok data ↔
      fetchedBody env n (detailUrl query) = some data) ∧
    ((∃ e, (fetchPokemonDetail env n nameOrId).result = .error e) ↔
      ((∃ status, refusedStatus env n (detailUrl query) = some status) ∨
        (∃ e, env.fetch n (detailUrl query) = .error e) ∨
        (∃ r e, env.fetch n (detailUrl query) = .ok r ∧ r.ok = true ∧ r.json = .error e))) ∧
    (∀ e, env.fetch n (detailUrl query) = .error e →
      (fetchPokemonDetail env n nameOrId).result = .error e) ∧
    (∀ r, env.fetch n (detailUrl query) = .ok r → r.ok = false →
      (fetchPokemonDetail env n nameOrId).result
        = .error (mkError ("Pokémon no encontrado: " ++ toString r.status))) ∧
    (∀ r, env.fetch n (detailUrl query) = .ok r → r.ok = true →
      (fetchPokemonDetail env n nameOrId).result = r.json) := by
  have herr : ∀ e, env.fetch n (detailUrl query) = .error e →
      (fetchPokemonDetail env n nameOrId).result = .error e := by
    intro e he
    rw [fetchPokemonDetail_eq_try]
    simp [fetchPokemonDetailTry, hq, he]
  have hrefused : ∀ r, env.fetch n (detailUrl query) = .ok r → r.ok = false →
      (fetchPokemonDetail env n nameOrId).result
        = .error (mkError ("Pokémon no encontrado: " ++ toString r.status)) := by
    intro r hr hok
    rw [fetchPokemonDetail_eq_try]
    simp [fetchPokemonDetailTry, hq, hr, hok]
  have hbody : ∀ r, env.fetch n (detailUrl query) = .ok r → r.ok = true →
      (fetchPokemonDetail env n nameOrId).result = r.json := by
    intro r hr hok
    rw [fetchPokemonDetail_eq_try]
    cases hjson : r.json with
    | error e => simp [fetchPokemonDetailTry, hq, hr, hok, hjson]
    | ok body => simp [fetchPokemonDetailTry, hq, hr, hok, hjson]
  refine ⟨fetchPokemonDetail_requests_of_query hq, fetchPokemonDetail_eq_try env n nameOrId,
    ?_, ?_, herr, hrefused, hbody⟩
  · intro data
    rw [fetchPokemonDetail_result_ok_iff]
    constructor
    · rintro ⟨q, h1, h2⟩
      rw [hq] at h1
      cases h1
      exact h2
    · intro h
      exact ⟨query, hq, h⟩
  · constructor
    · rintro ⟨e, he⟩
      cases hf : env.fetch n (detailUrl query) with
      | error e' => exact Or.inr (Or.inl ⟨e', rfl⟩)
      | ok r =>
        cases hok : r.ok with
        | false => exact Or.inl ⟨r.status, by simp [refusedStatus, hf, hok]⟩
        | true =>
          rw [hbody r hf hok] at he
          exact Or.inr (Or.inr ⟨r, e, rfl, hok, he⟩)
    · rintro (⟨status, hs⟩ | ⟨e, he⟩ | ⟨r, e, hr, hok, hjson⟩)
      · obtain ⟨r, hr, hok, -⟩ := refusedStatus_eq_some hs
        exact ⟨_, hrefused r hr hok⟩
      · exact ⟨e, herr e he⟩
      · exact ⟨e, by rw [hbody r hr hok, hjson]⟩

/-- A name the example server knows and one it does not. -/
theorem fetchDetail_outcome_witness :
    (fetchPokemonDetail pokeEnv 0 (some (Json.str "Pikachu"))).requests
      = [detailUrl "pikachu"] ∧
    (fetchPokemonDetail pokeEnv 0 (some (Json.str "Pikachu"))).result = .ok pikachu ∧
    (fetchPokemonDetail pokeEnv 0 (some (Json.str "Mew"))).result
      = .error (mkError ("Pokémon no encontrado: " ++ toString 404)) :=
  ⟨(fetchDetail_outcome pokeEnv 0 (some (Json.str "Pikachu")) "pikachu" rfl).1,
    ((fetchDetail_outcome pokeEnv 0 (some (Json.str "Pikachu")) "pikachu" rfl).2.2.1
      pikachu).mpr rfl,
    (fetchDetail_outcome pokeEnv 0 (some (Json.str "Mew")) "mew" rfl).2.2.2.2.2.1
      notFoundResponse rfl rfl⟩

/-- C9 fails as stated: the request is answered with status 200, so that neither the status
nor the transport fails, but the body is not JSON, and `fetchPokemonDetail` fails with the
error of `json()` instead of returning the body. -/
theorem fetchDetail_fails_on_unreadable_body :
    htmlEnv.fetch 0 (detailUrl "pikachu") = .ok ⟨true, 200, .error unreadableBody⟩ ∧
    refusedStatus htmlEnv 0 (detailUrl "pikachu") = none ∧
    (fetchPokemonDetail htmlEnv 0 (some (Json.str "Pikachu"))).requests
      = [detailUrl "pikachu"] ∧
    (fetchPokemonDetail htmlEnv 0 (some (Json.str "Pikachu"))).result
      = .error unreadableBody := by
  refine ⟨rfl, rfl, rfl, rfl⟩

/-! ## Lemmas on `fetchPokemonList` -/

theorem fetchPokemonList_result (env : Env) (n : Nat) (offset lim : Int) :
    (fetchPokemonList env n offset lim).result = (fetchPokemonListTry env n offset lim).result := by
  unfold fetchPokemonList
  rcases fetchPokemonListTry env n offset lim with ⟨result, requests⟩
  cases result <;> rfl

theorem pageObject_eq_ok {data : Json} {details : List Json} {page : PokemonPage}
    (h : pageObject data details = .ok page) :
    getProp (some data) "count" = .ok page.count ∧ getProp (some data) "next" = .ok page.next ∧
      getProp (some data) "previous" = .ok page.previous ∧ page.results = details := by
  unfold pageObject at h
  cases hc : getProp (some data) "count" with
  | error e => simp [hc] at h
  | ok count =>
    cases hn : getProp (some data) "next" with
    | error e => simp [hc, hn] at h
    | ok next =>
      cases hp : getProp (some data) "previous" with
      | error e => simp [hc, hn, hp] at h
      | ok previous =>
        simp only [hc, hn, hp, Except.ok.injEq] at h
        subst h
        exact ⟨rfl, rfl, rfl, rfl⟩

/-- A value of which one property can be read lets every property be read. -/
theorem getProp_total {data : Json} {key : String} {v : JsValue}
    (h : getProp (some data) key = .ok v) (key' : String) :
    ∃ v', getProp (some data) key' = .ok v' := by
  cases data <;> first | (simp [getProp] at h; done) | exact ⟨_, rfl⟩

theorem pageObject_of_readable {data : Json} {key : String} {v : JsValue}
    (h : getProp (some data) key = .ok v) (details : List Json) :
    ∃ page, pageObject data details = .ok page := by
  obtain ⟨c, hc⟩ := getProp_total h "count"
  obtain ⟨nx, hn⟩ := getProp_total h "next"
  obtain ⟨pv, hp⟩ := getProp_total h "previous"
  exact ⟨⟨c, nx, pv, details⟩, by simp [pageObject, hc, hn, hp]⟩

/-- The state of `fetchPokemonList` once the page is received and its `results` is an
array. -/
theorem fetchPokemonListTry_of_results {env : Env} {n : Nat} {offset lim : Int} {data : Json}
    {items : List Json} (hdata : fetchedBody env n (listUrl offset lim) = some data)
    (hresults : getProp (some data) "results" = .ok (some (Json.arr items))) :
    (fetchPokemonListTry env n offset lim).result =
      match (mapDetails env (n + 1) items).result with
      | .error e => .error e
      | .ok promises =>
        match promiseAll (env.settleTime (n + 1)) promises with
        | .error e => .error e
        | .ok details => pageObject data details := by
  obtain ⟨r, hr, hok, hjson⟩ := fetchedBody_eq_some hdata
  simp only [fetchPokemonListTry, hr, hok, hjson, hresults]
  rcases mapDetails env (n + 1) items with ⟨result, requests⟩
  cases result with
  | error e => rfl
  | ok promises =>
    simp only [Bool.not_true, Bool.false_eq_true, if_false]
    cases promiseAll (env.settleTime (n + 1)) promises <;> rfl

theorem promiseAll_eq_ok {α : Type} {st : Nat → Nat} {outcomes : List (Except JsError α)}
    {values : List α} (h : promiseAll st outcomes = .ok values) :
    ∀ o ∈ outcomes, ∃ v, o = Except.ok v := by
  intro o ho
  cases o with
  | ok v => exact ⟨v, rfl⟩
  | error e =>
    obtain ⟨e', he'⟩ := promiseAll_of_mem_error st outcomes e ho
    rw [he'] at h
    cases h

/-- When the detail of every item is fetched, `mapDetails` creates promises that all fulfil,
each with the detail of its item. -/
theorem mapDetails_all_fetched (env : Env) (items : List Json) (n : Nat)
    (h : ∀ i item, items[i]? = some item → ∃ name detail,
      getProp (some item) "name" = .ok name ∧
      (fetchPokemonDetail env (n + i) name).result = .ok detail) :
    ∃ details : List Json,
      (mapDetails env n items).result = .ok (details.map Except.ok) ∧
      details.length = items.length ∧
      ∀ i item, items[i]? = some item → ∃ name detail,
        getProp (some item) "name" = .ok name ∧
        (fetchPokemonDetail env (n + i) name).result = .ok detail ∧
        details[i]? = some detail := by
  induction items generalizing n with
  | nil => exact ⟨[], rfl, rfl, by intro i item hi; simp at hi⟩
  | cons p rest ih =>
    obtain ⟨name, detail, hname, hdetail⟩ := h 0 p (by simp)
    rw [Nat.add_zero] at hdetail
    have hlen := fetchPokemonDetail_requests_of_ok hdetail
    have hrest : ∀ i item, rest[i]? = some item → ∃ name detail,
        getProp (some item) "name" = .ok name ∧
        (fetchPokemonDetail env (n + 1 + i) name).result = .ok detail := by
      intro i item hi
      obtain ⟨nm, d, h1, h2⟩ := h (i + 1) item (by simpa using hi)
      exact ⟨nm, d, h1, by rw [Nat.add_assoc, Nat.add_comm 1 i]; exact h2⟩
    obtain ⟨details, hres, hlen', hget⟩ := ih (n + 1) hrest
    refine ⟨detail :: details, ?_, by simp [hlen'], ?_⟩
    · simp only [mapDetails, hname, hlen]
      rcases hmd : mapDetails env (n + 1) rest with ⟨result, requests⟩
      rw [hmd] at hres
      simp only at hres
      subst hres
      simp [hdetail]
    · intro i item hi
      cases i with
      | zero =>
        have : p = item := by simpa using hi
        subst this
        exact ⟨name, detail, hname, by simpa using hdetail, by simp⟩
      | succ i =>
        obtain ⟨nm, d, h1, h2, h3⟩ := hget i item (by simpa using hi)
        exact ⟨nm, d, h1, by rw [Nat.add_assoc, Nat.add_comm 1 i] at h2; exact h2,
          by simpa using h3⟩

/-- When `mapDetails` returns promises that all fulfil, the detail of every item was
fetched. -/
theorem mapDetails_all_fulfilled (env : Env) (items : List Json) (n : Nat)
    (promises : List (Except JsError Json))
    (hmap : (mapDetails env n items).result = .ok promises)
    (hall : ∀ o ∈ promises, ∃ v, o = Except.ok v) :
    ∀ i item, items[i]? = some item → ∃ name detail,
      getProp (some item) "name" = .ok name ∧
      (fetchPokemonDetail env (n + i) name).result = .ok detail := by
  induction items generalizing n promises with
  | nil => intro i item hi; simp at hi
  | cons p rest ih =>
    unfold mapDetails at hmap
    cases hname : getProp (some p) "name" with
    | error e => simp [hname] at hmap
    | ok name =>
      simp only [hname] at hmap
      rcases hmd : mapDetails env (n + (fetchPokemonDetail env n name).requests.length) rest
        with ⟨result, requests⟩
      rw [hmd] at hmap
      cases result with
      | error e => simp at hmap
      | ok tail =>
        simp only [Except.ok.injEq] at hmap
        subst hmap
        obtain ⟨detail, hdetail⟩ := hall _ (List.mem_cons_self _ _)
        have hlen := fetchPokemonDetail_requests_of_ok hdetail
        rw [hlen] at hmd
        have htail := ih (n + 1) tail (by rw [hmd])
          (fun o ho => hall o (List.mem_cons_of_mem _ ho))
        intro i item hi
        cases i with
        | zero =>
          have : p = item := by simpa using hi
          subst this
          exact ⟨name, detail, hname, by simpa using hdetail⟩
        | succ i =>
          obtain ⟨nm, d, h1, h2⟩ := htail i item (by simpa using hi)
          exact ⟨nm, d, h1, by rw [Nat.add_assoc, Nat.add_comm 1 i] at h2; exact h2⟩

theorem detailOf_eq_some {env : Env} {n : Nat} {pokemon detail : Json} :
    detailOf env n pokemon = some detail ↔
      ∃ name, getProp (some pokemon) "name" = .ok name ∧
        (fetchPokemonDetail env n name).result = .ok detail := by
  unfold detailOf
  cases hname : getProp (some pokemon) "name" with
  | error e => simp
  | ok name =>
    cases hres : (fetchPokemonDetail env n name).result with
    | error e => simp [hres]
    | ok d => simp [hres]

/-! ## `fetchPokemonList`: the claims -/

/-- C8: when the list request succeeds and the `results` of the response is an array of `K`
items: if the detail of every item is fetched, `fetchPokemonList` returns a page with the
`count` of the response and exactly `K` results, the `i`-th being the detail fetched by the
name of the `i`-th item; if the detail of some item is not fetched, `fetchPokemonList` fails.
The list request being request `n`, the detail request of item `i` is request `n + 1 + i` when
the details of the items before it are requested; the first item whose detail is not fetched
is in that case. -/
theorem fetchPage_details_all_or_nothing (env : Env) (n : Nat) (offset lim : Int) (data : Json)
    (items : List Json)
    (hdata : fetchedBody env n (listUrl offset lim) = some data)
    (hresults : getProp (some data) "results" = .ok (some (Json.arr items))) :
    ((∀ i item, items[i]? = some item → ∃ detail, detailOf env (n + 1 + i) item = some detail) →
      ∃ page, (fetchPokemonList env n offset lim).result = .ok page ∧
        getProp (some data) "count" = .ok page.count ∧
        page.results.length = items.length ∧
        ∀ i item, items[i]? = some item →
          ∃ detail, detailOf env (n + 1 + i) item = some detail ∧
            page.results[i]? = some detail) ∧
    ((∃ i item, items[i]? = some item ∧ detailOf env (n + 1 + i) item = none) →
      ∃ e, (fetchPokemonList env n offset lim).result = .error e) := by
  have htry := fetchPokemonListTry_of_results hdata hresults
  rw [← fetchPokemonList_result] at htry
  constructor
  · intro hall
    have hall' : ∀ i item, items[i]? = some item → ∃ name detail,
        getProp (some item) "name" = .ok name ∧
        (fetchPokemonDetail env (n + 1 + i) name).result = .ok detail := by
      intro i item hi
      obtain ⟨detail, hd⟩ := hall i item hi
      obtain ⟨name, h1, h2⟩ := detailOf_eq_some.mp hd
      exact ⟨name, detail, h1, h2⟩
    obtain ⟨details, hres, hlen, hget⟩ := mapDetails_all_fetched env items (n + 1) hall'
    obtain ⟨page, hpage⟩ := pageObject_of_readable hresults details
    rw [hres] at htry
    simp only [promiseAll_all_ok, hpage] at htry
    obtain ⟨hcount, -, -, hresultsEq⟩ := pageObject_eq_ok hpage
    refine ⟨page, htry, hcount, by rw [hresultsEq, hlen], ?_⟩
    intro i item hi
    obtain ⟨name, detail, h1, h2, h3⟩ := hget i item hi
    exact ⟨detail, detailOf_eq_some.mpr ⟨name, h1, h2⟩, by rw [hresultsEq]; exact h3⟩
  · rintro ⟨i, item, hi, hnone⟩
    cases hr : (fetchPokemonList env n offset lim).result with
    | error e => exact ⟨e, rfl⟩
    | ok page =>
      exfalso
      rw [hr] at htry
      cases hmap : (mapDetails env (n + 1) items).result with
      | error e => simp [hmap] at htry
      | ok promises =>
        cases hall : promiseAll (env.settleTime (n + 1)) promises with
        | error e => simp [hmap, hall] at htry
        | ok details =>
          obtain ⟨name, detail, h1, h2⟩ :=
            mapDetails_all_fulfilled env items (n + 1) promises hmap (promiseAll_eq_ok hall)
              i item hi
          rw [detailOf_eq_some.mpr ⟨name, h1, h2⟩] at hnone
          cases hnone

/-- A page of two items, with both details on one server and one detail missing on the
other. -/
theorem fetchPage_details_all_or_nothing_witness :
    (∃ page, (fetchPokemonList pokeEnv 0 0 10).result = .ok page ∧
        getProp (some examplePage) "count" = .ok page.count ∧
        page.results.length = 2 ∧
        ∀ i item, [Json.obj [("name", Json.str "bulbasaur")],
            Json.obj [("name", Json.str "Pikachu")]][i]? = some item →
          ∃ detail, detailOf pokeEnv (0 + 1 + i) item = some detail ∧
            page.results[i]? = some detail) ∧
    ∃ e, (fetchPokemonList lostEnv 0 0 10).result = .error e :=
  ⟨(fetchPage_details_all_or_nothing pokeEnv 0 0 10 examplePage
      [Json.obj [("name", Json.str "bulbasaur")], Json.obj [("name", Json.str "Pikachu")]]
      rfl rfl).1
      (by
        intro i item hi
        rcases i with _ | _ | i
        · cases hi
          exact ⟨bulbasaur, rfl⟩
        · cases hi
          exact ⟨pikachu, rfl⟩
        · simp at hi),
    (fetchPage_details_all_or_nothing lostEnv 0 0 10 examplePage
      [Json.obj [("name", Json.str "bulbasaur")], Json.obj [("name", Json.str "Pikachu")]]
      rfl rfl).2 ⟨1, Json.obj [("name", Json.str "Pikachu")], rfl, rfl⟩⟩

end FetchAggregation
